import Mathlib

/-!
Shallow embedding of the data-conversion and classification core of the
Global-Launch-Estimates visual (`src/visual.ts`).

JavaScript values that can appear in a table cell are embedded as
`CellValue`; JS truthiness and `toString` are made explicit.  JS `null`
for record fields is `Option.none`.  Statements that throw a `TypeError`
in the source (`null.toLowerCase()`, `null.toString()`) are embedded with
`Except Unit` / an error branch, so that "throws" is observable.
JS object key assignment (`obj[k] = v`) is embedded as an association
list updated in place (`objSet`), preserving first-insertion key order.
`Array.prototype.sort` (stable in the runtimes this visual targets) is
embedded as a stable `List.mergeSort`.
-/

/-- A JS primitive cell value of the host table (`powerbi.PrimitiveValue`):
`null`/`undefined`, a string, a number (restricted to integers, which is
all the Launch/year data carries), or a boolean. -/
inductive CellValue where
  | null : CellValue
  | str : String → CellValue
  | num : Int → CellValue
  | bool : Bool → CellValue
deriving DecidableEq, Repr

/-- JS truthiness of a cell value: `null`, `undefined`, `0`, `""` and
`false` are falsy. -/
def CellValue.truthy : CellValue → Bool
  | .null => false
  | .str s => decide (s ≠ "")
  | .num n => decide (n ≠ 0)
  | .bool b => b

/-- JS `toString()` of a cell value (only ever applied to truthy cells in
the source, so the `null` branch is never reached there). -/
def CellValue.toDisplayString : CellValue → String
  | .null => "null"
  | .str s => s
  | .num n => toString n
  | .bool b => if b then "true" else "false"

/-- `row[idx] ? row[idx].toString() : null` — the per-field extraction of
`CONVERTER` (visual.ts lines 895-904): a truthy cell is stringified,
a falsy cell yields `null`. -/
def toField (c : CellValue) : Option String :=
  if c.truthy then some c.toDisplayString else none

/-- `row[k]` with `k` possibly `-1` (role unset, embedded as `none`) or out
of range: JS yields `undefined`, which is falsy and never stringified, so
it is embedded as `CellValue.null`. -/
def cellAt (row : List CellValue) : Option Nat → CellValue
  | none => .null
  | some k => row.getD k .null

/-- A host column descriptor: the set of semantic role names the column
declares (`column.roles.hasOwnProperty(r)` ↔ `r ∈ roles`). -/
structure ColumnDesc where
  roles : List String
deriving DecidableEq, Repr

/-- The ten semantic roles of the visual, in the priority order of the
`else if` chain of `CONVERTER` (visual.ts lines 870-890). -/
inductive Role where
  | company | region | state | country | doc | launch | color | highlights | headerImage | footerImage
deriving DecidableEq, Repr

/-- The role-vocabulary key string tested with `hasOwnProperty`. -/
def Role.key : Role → String
  | .company => "Company"
  | .region => "Region"
  | .state => "State"
  | .country => "Country"
  | .doc => "DocumentLink"
  | .launch => "Launch"
  | .color => "Color"
  | .highlights => "Highlights"
  | .headerImage => "HeaderImage"
  | .footerImage => "FooterImage"

/-- The ten `_xxxIndex` variables of `CONVERTER`; `-1` (never assigned) is
embedded as `none`. -/
structure RoleIndices where
  companyIndex : Option Nat
  regionIndex : Option Nat
  stateIndex : Option Nat
  countryIndex : Option Nat
  docIndex : Option Nat
  launchIndex : Option Nat
  colorIndex : Option Nat
  highlightsIndex : Option Nat
  headerImageIndex : Option Nat
  footerImageIndex : Option Nat
deriving DecidableEq, Repr

/-- All indices start at `-1` (`none`). -/
def initIndices : RoleIndices :=
  ⟨none, none, none, none, none, none, none, none, none, none⟩

/-- Field of `RoleIndices` selected by a role. -/
def RoleIndices.get (idx : RoleIndices) : Role → Option Nat
  | .company => idx.companyIndex
  | .region => idx.regionIndex
  | .state => idx.stateIndex
  | .country => idx.countryIndex
  | .doc => idx.docIndex
  | .launch => idx.launchIndex
  | .color => idx.colorIndex
  | .highlights => idx.highlightsIndex
  | .headerImage => idx.headerImageIndex
  | .footerImage => idx.footerImageIndex

/-- The body of the column loop of `CONVERTER` (visual.ts lines 869-891)
for the column at position `ti`: the `else if` chain assigns `ti` to the
index variable of the FIRST role of the priority order that the column
declares, overwriting any earlier assignment to that variable. -/
def assignColumn (acc : RoleIndices) (ti : Nat) (col : ColumnDesc) : RoleIndices :=
  if col.roles.contains "Company" then { acc with companyIndex := some ti }
  else if col.roles.contains "Region" then { acc with regionIndex := some ti }
  else if col.roles.contains "State" then { acc with stateIndex := some ti }
  else if col.roles.contains "Country" then { acc with countryIndex := some ti }
  else if col.roles.contains "DocumentLink" then { acc with docIndex := some ti }
  else if col.roles.contains "Launch" then { acc with launchIndex := some ti }
  else if col.roles.contains "Color" then { acc with colorIndex := some ti }
  else if col.roles.contains "Highlights" then { acc with highlightsIndex := some ti }
  else if col.roles.contains "HeaderImage" then { acc with headerImageIndex := some ti }
  else if col.roles.contains "FooterImage" then { acc with footerImageIndex := some ti }
  else acc

/-- The column loop of `CONVERTER`: `for (let ti = 0; ...)` over the
column list. -/
def resolveIndices (cols : List ColumnDesc) : RoleIndices :=
  cols.enum.foldl (fun acc p => assignColumn acc p.1 p.2) initIndices

/-- The first role of the priority order that a column declares (a
restatement of the branch taken by the `else if` chain of
`assignColumn`), used to state which column "effectively claims" a role. -/
def classifyColumn (col : ColumnDesc) : Option Role :=
  if col.roles.contains "Company" then some .company
  else if col.roles.contains "Region" then some .region
  else if col.roles.contains "State" then some .state
  else if col.roles.contains "Country" then some .country
  else if col.roles.contains "DocumentLink" then some .doc
  else if col.roles.contains "Launch" then some .launch
  else if col.roles.contains "Color" then some .color
  else if col.roles.contains "Highlights" then some .highlights
  else if col.roles.contains "HeaderImage" then some .headerImage
  else if col.roles.contains "FooterImage" then some .footerImage
  else none

/-- `GlobalFacilityLocation` (visual.ts lines 49-61).  Fields the source
may set to `null` are `Option String`; the host-issued opaque
`selectionId` (created per row index) is embedded as the row index. -/
structure GlobalFacilityLocation where
  Company : Option String
  Region : Option String
  State : Option String
  Country : Option String
  DocumentLink : Option String
  Launch : Option String
  Color : Option String
  Highlights : Option String
  HeaderImage : Option String
  FooterImage : Option String
  selectionId : Nat
deriving DecidableEq, Repr

/-- Field of a record selected by a role. -/
def GlobalFacilityLocation.roleField (r : GlobalFacilityLocation) : Role → Option String
  | .company => r.Company
  | .region => r.Region
  | .state => r.State
  | .country => r.Country
  | .doc => r.DocumentLink
  | .launch => r.Launch
  | .color => r.Color
  | .highlights => r.Highlights
  | .headerImage => r.HeaderImage
  | .footerImage => r.FooterImage

/-- The host table: column descriptors plus rows of cells
(`dataView.table.columns` / `dataView.table.rows`). -/
structure TableView where
  columns : List ColumnDesc
  rows : List (List CellValue)
deriving DecidableEq, Repr

/-- `Visual.CONVERTER` (visual.ts lines 862-910): resolve the role
indices from the column list, then build one record per row, each field
read at its role's index (`cellAt`/`toField`), with the host selection id
issued per row index. -/
def CONVERTER (tv : TableView) : List GlobalFacilityLocation :=
  let idx := resolveIndices tv.columns
  tv.rows.enum.map (fun p =>
    { Company := toField (cellAt p.2 idx.companyIndex)
      Region := toField (cellAt p.2 idx.regionIndex)
      State := toField (cellAt p.2 idx.stateIndex)
      Country := toField (cellAt p.2 idx.countryIndex)
      DocumentLink := toField (cellAt p.2 idx.docIndex)
      Launch := toField (cellAt p.2 idx.launchIndex)
      Color := toField (cellAt p.2 idx.colorIndex)
      Highlights := toField (cellAt p.2 idx.highlightsIndex)
      HeaderImage := toField (cellAt p.2 idx.headerImageIndex)
      FooterImage := toField (cellAt p.2 idx.footerImageIndex)
      selectionId := p.1 })

/-- The settings fields of `this.settings.locations` the core logic
reads. -/
structure Settings where
  viewRegionalMap : Bool
  defaultRegion : String
deriving DecidableEq, Repr

/-- The JS idiom `list.filter((v, i, list) => list.indexOf(v) === i)`
keeps the element at position `i` exactly when no equal element occurs at
a smaller position, i.e. when the element is not among the already-scanned
prefix (`seen`). -/
def jsDistinctAux {α : Type} [DecidableEq α] : List α → List α → List α
  | [], _ => []
  | a :: l, seen =>
    if a ∈ seen then jsDistinctAux l (seen ++ [a])
    else a :: jsDistinctAux l (seen ++ [a])

/-- `list.filter((v, i, list) => list.indexOf(v) === i)`: distinct values
keeping first occurrences, order preserved. -/
def jsDistinct {α : Type} [DecidableEq α] (l : List α) : List α :=
  jsDistinctAux l []

/-- The string key the default (comparator-less) JS `sort()` compares:
`String(x)`, with `String(null) = "null"`. -/
def jsSortKey : Option String → String
  | some s => s
  | none => "null"

/-- `getDistinctYears` (visual.ts lines 465-467):
`mapData.map(v => v.Launch).filter((v,i,list) => list.indexOf(v) === i).sort()`.
The default sort is stable and compares `String(x)`. -/
def getDistinctYears (mapData : List GlobalFacilityLocation) : List (Option String) :=
  List.mergeSort (jsDistinct (mapData.map (·.Launch)))
    (fun a b => decide (jsSortKey a ≤ jsSortKey b))

/-- JS `ToNumber` as the regional sort comparator applies it, restricted to
the integer-string and `null` cases that arise here: `Number(null) = 0`,
`Number("") = 0`, an integer numeral parses, anything else is `NaN`
(embedded as `none`). -/
def jsNumber : Option String → Option Int
  | none => some 0
  | some s => if s = "" then some 0 else s.toInt?

/-- The comparator `(a, b) => a - b` of the regional distinct-year sort
(visual.ts line 720) as a merge condition: take the left element when
`a - b ≤ 0`; a `NaN` result is treated by `sort` as "equal", which for a
stable merge also means taking the left element. -/
def numLe (a b : Option String) : Bool :=
  match jsNumber a, jsNumber b with
  | some x, some y => decide (x ≤ y)
  | _, _ => true

/-- The inline distinct-Launch computation of `renderRegionalMap`
(visual.ts line 720):
`mapData.map(v => v.Launch).filter((v,i,list) => list.indexOf(v) === i).sort((a,b) => a - b)`. -/
def getDistinctYearsRegional (mapData : List GlobalFacilityLocation) : List (Option String) :=
  List.mergeSort (jsDistinct (mapData.map (·.Launch))) numLe

/-- JS `str.split(' ')` on the underlying character list: split at every
single space character; consecutive separators yield empty parts and the
result is never the empty list (`"".split(' ') = [""]`). -/
def splitChars : List Char → List (List Char)
  | [] => [[]]
  | c :: rest =>
    if c = ' ' then [] :: splitChars rest
    else
      match splitChars rest with
      | [] => [[c]]
      | t :: ts => (c :: t) :: ts

/-- JS `str.split(' ')` on strings. -/
def jsSplitSpace (s : String) : List String :=
  (splitChars s.data).map (fun l => String.mk l)

/-- The label transposition both legend passes apply (visual.ts lines
569-578 and 604-610): `splits = y.split(' ')`; if exactly two tokens,
rejoin them swapped; otherwise take `splits[0]`. -/
def reverseLabel (y : String) : String :=
  match jsSplitSpace y with
  | [a, b] => b ++ " " ++ a
  | l => l.headD ""

/-- The text actually rendered for a truthy (non-empty, non-null) Launch
value `y` by `renderWorldMapLegend`: the legend data is built from the
transposed labels (lines 567-579, under the `if (v.Year)` truthiness
guard) and the `.text` callback transposes each datum again (lines
601-611), so the rendered label is `reverseLabel` applied twice. -/
def worldLegendLabel (y : String) : String :=
  reverseLabel (reverseLabel y)

/-- The text rendered for a Launch value by `renderRegionalMapLegend`
(visual.ts lines 854-858): `d.Year` as-is. -/
def regionalLegendLabel (y : String) : String := y

/-- `getCurrentRegion` (visual.ts lines 614-631).  When the regional map
is on and the default region is "USA", that default is returned without
looking at the records; otherwise the distinct Region values are computed
and, if there is exactly one, `distinctRegions[0].toString()` is returned
— which throws a `TypeError` (embedded as `.error ()`) when that sole
value is `null`; in every other case the configured default is
returned. -/
def getCurrentRegion (settings : Settings) (mapData : List GlobalFacilityLocation) :
    Except Unit String :=
  if settings.viewRegionalMap && settings.defaultRegion == "USA" then
    .ok settings.defaultRegion
  else
    match jsDistinct (mapData.map (·.Region)) with
    | [some r] => .ok r
    | [none] => .error ()
    | _ => .ok settings.defaultRegion

/-- The region filter of `update` (visual.ts lines 202-204):
`if (currentRegion != "USA") finalMapData = finalMapData.filter(d => d.Region === currentRegion)`.
`===` on a `null` Region and a string is simply false. -/
def partitionByRegion (currentRegion : String) (mapData : List GlobalFacilityLocation) :
    List GlobalFacilityLocation :=
  if currentRegion ≠ "USA" then mapData.filter (fun d => d.Region = some currentRegion)
  else mapData

/-- The record-selection phase of `update` (visual.ts lines 131-141):
truncate the decoded records to the first 1000, then, for each year `i`
from `currentYear - 1` to `currentYear + 8` in ascending order, append the
truncated records whose `Launch === i.toString()`.  The wall-clock year is
a parameter. -/
def finalMapDataOf (currentYear : Nat) (mapData : List GlobalFacilityLocation) :
    List GlobalFacilityLocation :=
  let m := mapData.take 1000
  ((List.range 10).map (fun k => currentYear - 1 + k)).foldl
    (fun acc y => acc ++ m.filter (fun d => d.Launch = some (toString y))) []

/-- One entry of the fixed country → ISO3 table. -/
structure CountryCode where
  country : String
  code : String
deriving DecidableEq, Repr

/-- One entry of the fixed US state → 2-letter-code table. -/
structure StateCode where
  state : String
  code : String
deriving DecidableEq, Repr

/-- `getCountryCodes` (visual.ts lines 375-457): the fixed 26-entry
country → ISO3 table. -/
def getCountryCodes : List CountryCode :=
  [⟨"France", "FRA"⟩, ⟨"Germany", "DEU"⟩, ⟨"Italy", "ITA"⟩, ⟨"Spain", "ESP"⟩,
   ⟨"United Kingdom", "GBR"⟩, ⟨"USA", "USA"⟩, ⟨"India", "IND"⟩, ⟨"Japan", "JPN"⟩,
   ⟨"Canada", "CAN"⟩, ⟨"Russia", "RUS"⟩, ⟨"Australia", "AUS"⟩, ⟨"Brazil", "BRA"⟩,
   ⟨"Argentina", "ARG"⟩, ⟨"Mexico", "MEX"⟩, ⟨"China", "CHN"⟩, ⟨"Belgium", "BEL"⟩,
   ⟨"Denmark", "DNK"⟩, ⟨"Sweden", "SWE"⟩, ⟨"Czechia", "CZE"⟩, ⟨"Singapore", "SGP"⟩,
   ⟨"South Korea", "KOR"⟩, ⟨"Thailand", "THA"⟩, ⟨"Turkey", "TUR"⟩,
   ⟨"Saudi Arabia", "SAU"⟩, ⟨"Egypt", "EGY"⟩, ⟨"UAE", "ARE"⟩]

/-- `getUSAStateCodes` (visual.ts lines 282-373): the fixed 29-entry
state → code table. -/
def getUSAStateCodes : List StateCode :=
  [⟨"Arizona", "AZ"⟩, ⟨"Florida", "FL"⟩, ⟨"Georgia", "GA"⟩, ⟨"Illinois", "IL"⟩,
   ⟨"Los Angeles", "LA"⟩, ⟨"Maryland", "MD"⟩, ⟨"Maine", "ME"⟩, ⟨"Missouri", "MO"⟩,
   ⟨"North Carolina", "NC"⟩, ⟨"Nebraska", "NE"⟩, ⟨"Nevada", "NV"⟩,
   ⟨"New Jersey", "NJ"⟩, ⟨"New York", "NY"⟩, ⟨"Ohio", "OH"⟩, ⟨"Oklahoma", "OK"⟩,
   ⟨"Pennsylvania", "PA"⟩, ⟨"South Carolina", "SC"⟩, ⟨"South Dakota", "SD"⟩,
   ⟨"Tennessee", "TN"⟩, ⟨"Texas", "TX"⟩, ⟨"Utah", "UT"⟩, ⟨"Wisconsin", "WI"⟩,
   ⟨"Virginia", "VA"⟩, ⟨"Washington", "WA"⟩, ⟨"California", "CA"⟩,
   ⟨"Connecticut", "CT"⟩, ⟨"Alaska", "AK"⟩, ⟨"Arkansas", "AR"⟩, ⟨"Alabama", "AL"⟩]

/-- One entry of `this.yearColorData`: `{Year, Color}` as built by
`getYearColorData`. -/
structure YearColorEntry where
  Year : Option String
  Color : Option String
deriving DecidableEq, Repr

/-- The value stored per geo code by the color-data builders:
`{fillKey: yearColor.Color, selectionId: v.selectionId}`. -/
structure ColorEntry where
  fillKey : String
  selectionId : Nat
deriving DecidableEq, Repr

/-- JS object key assignment `obj[k] = v` on an association list: an
existing key keeps its position and gets the new value, a new key is
appended. -/
def objSet (m : List (String × ColorEntry)) (k : String) (v : ColorEntry) :
    List (String × ColorEntry) :=
  if m.any (fun p => p.1 = k) then m.map (fun p => if p.1 = k then (k, v) else p)
  else m ++ [(k, v)]

/-- JS object key read `obj[k]`. -/
def objGet (m : List (String × ColorEntry)) (k : String) : Option ColorEntry :=
  (m.find? (fun p => p.1 = k)).map (·.2)

/-- JS `String.prototype.toLowerCase()`: per-character lowercasing. -/
def jsToLower (s : String) : String := String.mk (s.data.map Char.toLower)

/-- `countryCodes.find(c => c.country.toLowerCase() === v.Country.toLowerCase())`:
the callback dereferences `v.Country`, so with a non-empty table and a
`null` Country the first callback invocation throws a `TypeError`
(embedded as `.error ()`); with an empty table the callback never runs
and `find` returns `undefined` (`none`). -/
def findCountry (countryCodes : List CountryCode) (country : Option String) :
    Except Unit (Option CountryCode) :=
  match countryCodes with
  | [] => .ok none
  | _ =>
    match country with
    | none => .error ()
    | some s => .ok (countryCodes.find? (fun c => jsToLower c.country = jsToLower s))

/-- `stateCodes.find(c => c.state.toLowerCase() === v.State.toLowerCase())`,
same throwing behaviour on a `null` State. -/
def findState (stateCodes : List StateCode) (state : Option String) :
    Except Unit (Option StateCode) :=
  match stateCodes with
  | [] => .ok none
  | _ =>
    match state with
    | none => .error ()
    | some s => .ok (stateCodes.find? (fun c => jsToLower c.state = jsToLower s))

/-- The loop body of `getDatamapColorData` (visual.ts lines 489-495) for
one record, given the country lookup result: the entry is stored only when
the country lookup succeeded with a truthy code and the year lookup
succeeded with a truthy (non-null, non-empty) Color. -/
def colorStep (yearColorData : List YearColorEntry)
    (colorData : List (String × ColorEntry)) (v : GlobalFacilityLocation)
    (countryCode : Option CountryCode) : List (String × ColorEntry) :=
  let yearColor := yearColorData.find? (fun y => y.Year = v.Launch)
  match countryCode, yearColor with
  | some cc, some yc =>
    if cc.code ≠ "" then
      match yc.Color with
      | some col => if col ≠ "" then objSet colorData cc.code ⟨col, v.selectionId⟩ else colorData
      | none => colorData
    else colorData
  | _, _ => colorData

/-- `getDatamapColorData` (visual.ts lines 487-497): fold over the
records, resolving each record's Country against the country table
case-insensitively and its Launch against `yearColorData`, storing
`{fillKey, selectionId}` under the ISO3 code when both resolutions
succeed; the whole call throws when a record's Country is `null` (and the
table is non-empty). -/
def getDatamapColorData (mapData : List GlobalFacilityLocation)
    (countryCodes : List CountryCode) (yearColorData : List YearColorEntry) :
    Except Unit (List (String × ColorEntry)) :=
  mapData.foldlM
    (fun colorData v => do
      let countryCode ← findCountry countryCodes v.Country
      pure (colorStep yearColorData colorData v countryCode))
    []

/-- The loop body of `getDatamapColorDataFromUSA` (visual.ts lines
501-507) for one record, given the state lookup result. -/
def colorStepUSA (yearColorData : List YearColorEntry)
    (colorData : List (String × ColorEntry)) (v : GlobalFacilityLocation)
    (stateCode : Option StateCode) : List (String × ColorEntry) :=
  let yearColor := yearColorData.find? (fun y => y.Year = v.Launch)
  match stateCode, yearColor with
  | some sc, some yc =>
    if sc.code ≠ "" then
      match yc.Color with
      | some col => if col ≠ "" then objSet colorData sc.code ⟨col, v.selectionId⟩ else colorData
      | none => colorData
    else colorData
  | _, _ => colorData

/-- `getDatamapColorDataFromUSA` (visual.ts lines 499-509): as
`getDatamapColorData` but keyed by State against the state table. -/
def getDatamapColorDataFromUSA (mapData : List GlobalFacilityLocation)
    (stateCodes : List StateCode) (yearColorData : List YearColorEntry) :
    Except Unit (List (String × ColorEntry)) :=
  mapData.foldlM
    (fun colorData v => do
      let stateCode ← findState stateCodes v.State
      pure (colorStepUSA yearColorData colorData v stateCode))
    []

/-- The (code, entry) pair a single record contributes to the world
color map, `none` when the record is dropped (no table match, untruthy
code, no year match, or untruthy Color); a `null` Country contributes
nothing here (the full builder throws instead when the table is
non-empty). -/
def recordEmission (countryCodes : List CountryCode)
    (yearColorData : List YearColorEntry) (v : GlobalFacilityLocation) :
    Option (String × ColorEntry) :=
  match v.Country with
  | none => none
  | some s =>
    match countryCodes.find? (fun c => jsToLower c.country = jsToLower s) with
    | none => none
    | some cc =>
      if cc.code = "" then none
      else
        match yearColorData.find? (fun y => y.Year = v.Launch) with
        | none => none
        | some yc =>
          match yc.Color with
          | none => none
          | some col => if col = "" then none else some (cc.code, ⟨col, v.selectionId⟩)

/-- The (code, entry) pair a single record contributes to the US-state
color map, `none` when the record is dropped; the USA analogue of
`recordEmission`. -/
def recordEmissionUSA (stateCodes : List StateCode)
    (yearColorData : List YearColorEntry) (v : GlobalFacilityLocation) :
    Option (String × ColorEntry) :=
  match v.State with
  | none => none
  | some s =>
    match stateCodes.find? (fun c => jsToLower c.state = jsToLower s) with
    | none => none
    | some sc =>
      if sc.code = "" then none
      else
        match yearColorData.find? (fun y => y.Year = v.Launch) with
        | none => none
        | some yc =>
          match yc.Color with
          | none => none
          | some col => if col = "" then none else some (sc.code, ⟨col, v.selectionId⟩)

/-- A record with only the fields the classification pipeline reads, used
for concrete inputs. -/
def mkRec (region state country launch color : Option String) (sid : Nat) :
    GlobalFacilityLocation :=
  ⟨none, region, state, country, none, launch, color, none, none, none, sid⟩

/-! ### Splitting lemmas for the legend labels -/

theorem splitChars_of_no_space (xs : List Char) (h : ' ' ∉ xs) :
    splitChars xs = [xs] := by
  induction xs with
  | nil => rfl
  | cons c rest ih =>
    have hc : c ≠ ' ' := fun hc => h (hc ▸ List.mem_cons_self c rest)
    have hr : ' ' ∉ rest := fun hr => h (List.mem_cons_of_mem c hr)
    simp [splitChars, hc, ih hr]

theorem splitChars_append_space (xs ys : List Char) (h : ' ' ∉ xs) :
    splitChars (xs ++ ' ' :: ys) = xs :: splitChars ys := by
  induction xs with
  | nil => simp [splitChars]
  | cons c rest ih =>
    have hc : c ≠ ' ' := fun hc => h (hc ▸ List.mem_cons_self c rest)
    have hr : ' ' ∉ rest := fun hr => h (List.mem_cons_of_mem c hr)
    simp [splitChars, hc, ih hr]

theorem jsSplitSpace_single (y : String) (h : ' ' ∉ y.data) :
    jsSplitSpace y = [y] := by
  simp [jsSplitSpace, splitChars_of_no_space y.data h]

theorem data_append_space (q r : String) :
    (q ++ " " ++ r).data = q.data ++ ' ' :: r.data := by
  simp [String.data_append]

theorem jsSplitSpace_pair (q r : String) (hq : ' ' ∉ q.data) (hr : ' ' ∉ r.data) :
    jsSplitSpace (q ++ " " ++ r) = [q, r] := by
  unfold jsSplitSpace
  rw [data_append_space, splitChars_append_space q.data r.data hq,
    splitChars_of_no_space r.data hr]
  rfl

theorem reverseLabel_single (y : String) (h : ' ' ∉ y.data) :
    reverseLabel y = y := by
  simp [reverseLabel, jsSplitSpace_single y h]

theorem reverseLabel_pair (q r : String) (hq : ' ' ∉ q.data) (hr : ' ' ∉ r.data) :
    reverseLabel (q ++ " " ++ r) = r ++ " " ++ q := by
  simp [reverseLabel, jsSplitSpace_pair q r hq hr]

/-- C1 counterexample: for the two-token Launch value "Q1 2024" the label
rendered by the world-map legend is "Q1 2024" itself, not the transposed
"2024 Q1" the claim states: the legend transposes once while building its
sort data and a second time in the rendering callback. -/
theorem claim_c1_counterexample :
    worldLegendLabel "Q1 2024" = "Q1 2024" ∧ worldLegendLabel "Q1 2024" ≠ "2024 Q1" := by
  decide

/-- C1 (amended): for a two-token Launch value `q ++ " " ++ r` the
world-map legend computes the transposed form `r ++ " " ++ q` only as the
intermediate sort key (`reverseLabel`); the label it renders transposes a
second time and therefore equals the original value, for single-token
values the rendered label is also the value unchanged, and the
regional-map legend renders every Launch value exactly as-is. -/
theorem claim_c1 (q r y : String) (hq : ' ' ∉ q.data) (hr : ' ' ∉ r.data)
    (hy : ' ' ∉ y.data) (hy' : y ≠ "") :
    reverseLabel (q ++ " " ++ r) = r ++ " " ++ q ∧
    worldLegendLabel (q ++ " " ++ r) = q ++ " " ++ r ∧
    worldLegendLabel y = y ∧
    regionalLegendLabel (q ++ " " ++ r) = q ++ " " ++ r ∧
    regionalLegendLabel y = y := by
  refine ⟨reverseLabel_pair q r hq hr, ?_, ?_, rfl, rfl⟩
  · unfold worldLegendLabel
    rw [reverseLabel_pair q r hq hr, reverseLabel_pair r q hr hq]
  · unfold worldLegendLabel
    rw [reverseLabel_single y hy, reverseLabel_single y hy]

/-- C1 witness: the amended statement at the concrete quarter label
"Q1 2024". -/
theorem claim_c1_witness :
    reverseLabel ("Q1" ++ " " ++ "2024") = "2024" ++ " " ++ "Q1" ∧
    worldLegendLabel ("Q1" ++ " " ++ "2024") = "Q1" ++ " " ++ "2024" ∧
    worldLegendLabel "2024" = "2024" ∧
    regionalLegendLabel ("Q1" ++ " " ++ "2024") = "Q1" ++ " " ++ "2024" ∧
    regionalLegendLabel "2024" = "2024" :=
  claim_c1 "Q1" "2024" "2024" (by decide) (by decide) (by decide) (by decide)

/-- C4: the region partition of `update` is the identity for the special
token "USA"; for any other requested region it keeps, in their original
order (a sublist of the input), exactly the records whose Region equals
the requested region by case-sensitive string equality. -/
theorem claim_c4 (r : String) (mapData : List GlobalFacilityLocation) :
    partitionByRegion "USA" mapData = mapData ∧
    (r ≠ "USA" →
      (partitionByRegion r mapData).Sublist mapData ∧
      ∀ x, x ∈ partitionByRegion r mapData ↔ x ∈ mapData ∧ x.Region = some r) := by
  constructor
  · simp [partitionByRegion]
  · intro hr
    rw [partitionByRegion, if_pos hr]
    exact ⟨List.filter_sublist mapData, fun x => by simp [List.mem_filter]⟩

/-! ### CONVERTER lemmas -/

theorem converter_get? (tv : TableView) (i : Nat) (r : GlobalFacilityLocation)
    (h : (CONVERTER tv)[i]? = some r) :
    r.selectionId = i ∧
    ∀ ρ : Role, r.roleField ρ =
      toField (cellAt (tv.rows.getD i []) ((resolveIndices tv.columns).get ρ)) := by
  simp only [CONVERTER, List.getElem?_map, List.getElem?_enum] at h
  cases hrow : tv.rows[i]? with
  | none => rw [hrow] at h; simp at h
  | some row =>
    rw [hrow] at h
    simp only [Option.map_some', Option.some.injEq] at h
    subst h
    refine ⟨rfl, fun ρ => ?_⟩
    cases ρ <;>
      simp [GlobalFacilityLocation.roleField, RoleIndices.get,
        List.getD_eq_getElem?_getD, hrow]

/-- C8: the decoder produces exactly one record per input row — output
length equals the row count — and the record at output position `i` is
built from the row at input position `i` (its selection id is the row
index and each field reads that row at the resolved role index). -/
theorem claim_c8 (tv : TableView) :
    (CONVERTER tv).length = tv.rows.length ∧
    ∀ i, i < tv.rows.length → ∃ r, (CONVERTER tv)[i]? = some r ∧ r.selectionId = i ∧
      ∀ ρ : Role, r.roleField ρ =
        toField (cellAt (tv.rows.getD i []) ((resolveIndices tv.columns).get ρ)) := by
  have hlen : (CONVERTER tv).length = tv.rows.length := by
    simp [CONVERTER]
  refine ⟨hlen, fun i hi => ?_⟩
  have hi' : i < (CONVERTER tv).length := hlen ▸ hi
  have hr : (CONVERTER tv)[i]? = some ((CONVERTER tv)[i]) := List.getElem?_eq_getElem hi'
  exact ⟨(CONVERTER tv)[i], hr, converter_get? tv i ((CONVERTER tv)[i]) hr⟩

/-- C7 counterexample: a Country column at index 0 and a row whose cell
there is the number `0` — non-null — still decodes to a `null` Country,
because the extraction tests JS truthiness, not nullness. -/
theorem claim_c7_counterexample :
    (CONVERTER ⟨[⟨["Country"]⟩], [[CellValue.num 0]]⟩).map (·.Country) = [none] ∧
    CellValue.num 0 ≠ CellValue.null := by
  decide

/-- C7 (amended): for the record decoded from row `i`, a role whose
resolved column index is `k` yields the stringified cell at `row[k]` when
that cell is truthy and `null` when it is falsy (JS truthiness: `null`,
`0`, `""` and `false` all yield `null`, not only `null` cells); a role
with no resolved index always yields `null`. -/
theorem claim_c7 (tv : TableView) (i : Nat) (r : GlobalFacilityLocation) (ρ : Role)
    (h : (CONVERTER tv)[i]? = some r) :
    (∀ k, (resolveIndices tv.columns).get ρ = some k →
      r.roleField ρ =
        (if ((tv.rows.getD i []).getD k .null).truthy = true
          then some ((tv.rows.getD i []).getD k .null).toDisplayString else none)) ∧
    ((resolveIndices tv.columns).get ρ = none → r.roleField ρ = none) := by
  have hfield := (converter_get? tv i r h).2 ρ
  constructor
  · intro k hk
    rw [hfield, hk]
    rfl
  · intro hk
    rw [hfield, hk]
    rfl

/-- C7 witness: the amended statement at a one-column one-row table whose
Country cell is the number 2024. -/
theorem claim_c7_witness :
    (∀ k, (resolveIndices (TableView.mk [⟨["Country"]⟩] [[CellValue.num 2024]]).columns).get .country = some k →
      (mkRec none none (some "2024") none none 0).roleField .country =
        (if (((TableView.mk [⟨["Country"]⟩] [[CellValue.num 2024]]).rows.getD 0 []).getD k .null).truthy = true
          then some (((TableView.mk [⟨["Country"]⟩] [[CellValue.num 2024]]).rows.getD 0 []).getD k .null).toDisplayString
          else none)) ∧
    ((resolveIndices (TableView.mk [⟨["Country"]⟩] [[CellValue.num 2024]]).columns).get .country = none →
      (mkRec none none (some "2024") none none 0).roleField .country = none) :=
  claim_c7 ⟨[⟨["Country"]⟩], [[CellValue.num 2024]]⟩ 0
    (mkRec none none (some "2024") none none 0) .country (by decide)

/-! ### Role-index resolution lemmas -/

theorem get_assignColumn (acc : RoleIndices) (i : Nat) (col : ColumnDesc) (ρ : Role) :
    (assignColumn acc i col).get ρ =
      if classifyColumn col = some ρ then some i else acc.get ρ := by
  by_cases h1 : col.roles.contains "Company"
  · simp only [assignColumn, classifyColumn, if_pos h1]
    cases ρ <;> simp [RoleIndices.get]
  · by_cases h2 : col.roles.contains "Region"
    · simp only [assignColumn, classifyColumn, if_neg h1, if_pos h2]
      cases ρ <;> simp [RoleIndices.get]
    · by_cases h3 : col.roles.contains "State"
      · simp only [assignColumn, classifyColumn, if_neg h1, if_neg h2, if_pos h3]
        cases ρ <;> simp [RoleIndices.get]
      · by_cases h4 : col.roles.contains "Country"
        · simp only [assignColumn, classifyColumn, if_neg h1, if_neg h2, if_neg h3,
            if_pos h4]
          cases ρ <;> simp [RoleIndices.get]
        · by_cases h5 : col.roles.contains "DocumentLink"
          · simp only [assignColumn, classifyColumn, if_neg h1, if_neg h2, if_neg h3,
              if_neg h4, if_pos h5]
            cases ρ <;> simp [RoleIndices.get]
          · by_cases h6 : col.roles.contains "Launch"
            · simp only [assignColumn, classifyColumn, if_neg h1, if_neg h2, if_neg h3,
                if_neg h4, if_neg h5, if_pos h6]
              cases ρ <;> simp [RoleIndices.get]
            · by_cases h7 : col.roles.contains "Color"
              · simp only [assignColumn, classifyColumn, if_neg h1, if_neg h2, if_neg h3,
                  if_neg h4, if_neg h5, if_neg h6, if_pos h7]
                cases ρ <;> simp [RoleIndices.get]
              · by_cases h8 : col.roles.contains "Highlights"
                · simp only [assignColumn, classifyColumn, if_neg h1, if_neg h2,
                    if_neg h3, if_neg h4, if_neg h5, if_neg h6, if_neg h7, if_pos h8]
                  cases ρ <;> simp [RoleIndices.get]
                · by_cases h9 : col.roles.contains "HeaderImage"
                  · simp only [assignColumn, classifyColumn, if_neg h1, if_neg h2,
                      if_neg h3, if_neg h4, if_neg h5, if_neg h6, if_neg h7, if_neg h8,
                      if_pos h9]
                    cases ρ <;> simp [RoleIndices.get]
                  · by_cases h10 : col.roles.contains "FooterImage"
                    · simp only [assignColumn, classifyColumn, if_neg h1, if_neg h2,
                        if_neg h3, if_neg h4, if_neg h5, if_neg h6, if_neg h7, if_neg h8,
                        if_neg h9, if_pos h10]
                      cases ρ <;> simp [RoleIndices.get]
                    · simp only [assignColumn, classifyColumn, if_neg h1, if_neg h2,
                        if_neg h3, if_neg h4, if_neg h5, if_neg h6, if_neg h7, if_neg h8,
                        if_neg h9, if_neg h10]
                      simp

theorem resolveAux_get (ρ : Role) (pairs : List (Nat × ColumnDesc)) :
    ∀ (acc : RoleIndices),
    (pairs.foldl (fun a p => assignColumn a p.1 p.2) acc).get ρ =
      (((pairs.filter (fun p => classifyColumn p.2 = some ρ)).map Prod.fst).getLast?).or
        (acc.get ρ) := by
  induction pairs using List.reverseRecOn with
  | nil => intro acc; simp
  | append_singleton pairs p ih =>
    intro acc
    rw [List.foldl_append, List.foldl_cons, List.foldl_nil, get_assignColumn,
      List.filter_append, List.map_append, List.getLast?_append]
    by_cases hp : classifyColumn p.2 = some ρ
    · rw [if_pos hp]
      have hf : List.filter (fun q => decide (classifyColumn q.2 = some ρ)) [p] = [p] := by
        simp [hp]
      rw [hf]
      rfl
    · rw [if_neg hp]
      have hf : List.filter (fun q => decide (classifyColumn q.2 = some ρ)) [p] = [] := by
        simp [hp]
      rw [hf, ih acc]
      rfl

set_option maxHeartbeats 1000000 in
theorem classifyColumn_contains (col : ColumnDesc) (ρ : Role)
    (h : classifyColumn col = some ρ) : col.roles.contains ρ.key = true := by
  unfold classifyColumn at h
  split_ifs at h <;> (injection h with h2; subst h2; assumption)

/-- C6 counterexample: two columns both declaring role "Company" — the
decoder records index 1, the LAST such column, not the first as the
claim states. -/
theorem claim_c6_counterexample :
    (resolveIndices [⟨["Company"]⟩, ⟨["Company"]⟩]).companyIndex = some 1 ∧
    (resolveIndices [⟨["Company"]⟩, ⟨["Company"]⟩]).companyIndex ≠ some 0 := by
  decide

/-- C6 (amended): for each semantic role, the decoder records the index
of the LAST column whose first recognized role (in the fixed priority
order Company, Region, State, Country, DocumentLink, Launch, Color,
Highlights, HeaderImage, FooterImage) is that role — later columns
overwrite earlier ones; and a role never declared by any column leaves
its index unset and makes every output record's corresponding field
null. -/
theorem claim_c6 (cols : List ColumnDesc) (ρ : Role) :
    (resolveIndices cols).get ρ =
      ((cols.enum.filter (fun p => classifyColumn p.2 = some ρ)).map Prod.fst).getLast? ∧
    ((∀ col ∈ cols, col.roles.contains ρ.key = false) →
      (resolveIndices cols).get ρ = none ∧
      ∀ tv r, tv.columns = cols → r ∈ CONVERTER tv → r.roleField ρ = none) := by
  have hinit : initIndices.get ρ = none := by cases ρ <;> rfl
  have hmain : (resolveIndices cols).get ρ =
      ((cols.enum.filter (fun p => classifyColumn p.2 = some ρ)).map Prod.fst).getLast? := by
    rw [resolveIndices, resolveAux_get ρ cols.enum initIndices, hinit, Option.or_none]
  refine ⟨hmain, fun hnone => ?_⟩
  have hfilter : cols.enum.filter (fun p => classifyColumn p.2 = some ρ) = [] := by
    rw [List.filter_eq_nil_iff]
    intro p hp
    have hmem : p.2 ∈ cols := by
      obtain ⟨i, x⟩ := p
      have hx := List.mem_enum hp
      exact hx.2 ▸ List.getElem_mem hx.1
    simp only [decide_eq_true_eq]
    intro hcl
    have hcont := classifyColumn_contains p.2 ρ hcl
    rw [hnone p.2 hmem] at hcont
    exact Bool.false_ne_true hcont
  have hidx : (resolveIndices cols).get ρ = none := by
    rw [hmain, hfilter]; rfl
  refine ⟨hidx, fun tv r hcols hr => ?_⟩
  obtain ⟨i, hget⟩ := List.mem_iff_getElem?.mp hr
  have hfld := (converter_get? tv i r hget).2 ρ
  rw [hcols] at hfld
  rw [hfld, hidx]
  rfl

/-! ### Distinct-values (JS `indexOf` filter) lemmas -/

theorem jsDistinctAux_mem {α : Type} [DecidableEq α] (l : List α) :
    ∀ (seen : List α) (x : α), x ∈ jsDistinctAux l seen ↔ x ∈ l ∧ x ∉ seen := by
  induction l with
  | nil => intro seen x; simp [jsDistinctAux]
  | cons a l ih =>
    intro seen x
    by_cases ha : a ∈ seen
    · rw [jsDistinctAux, if_pos ha, ih]
      constructor
      · rintro ⟨hx, hns⟩
        refine ⟨List.mem_cons_of_mem a hx, fun hs => hns (List.mem_append_left [a] hs)⟩
      · rintro ⟨hx, hns⟩
        rcases List.mem_cons.mp hx with rfl | hx
        · exact absurd ha hns
        · exact ⟨hx, fun hs => hns (by
            rcases List.mem_append.mp hs with hs | hs
            · exact hs
            · rw [List.mem_singleton.mp hs]; exact ha)⟩
    · rw [jsDistinctAux, if_neg ha]
      rw [List.mem_cons, ih]
      constructor
      · rintro (rfl | ⟨hx, hns⟩)
        · exact ⟨List.mem_cons_self _ _, ha⟩
        · exact ⟨List.mem_cons_of_mem a hx,
            fun hs => hns (List.mem_append_left [a] hs)⟩
      · rintro ⟨hx, hns⟩
        rcases List.mem_cons.mp hx with rfl | hx
        · exact Or.inl rfl
        · by_cases hxa : x = a
          · exact Or.inl hxa
          · refine Or.inr ⟨hx, fun hs => ?_⟩
            rcases List.mem_append.mp hs with hs | hs
            · exact hns hs
            · exact hxa (by simpa using hs)

theorem jsDistinct_mem {α : Type} [DecidableEq α] (l : List α) (x : α) :
    x ∈ jsDistinct l ↔ x ∈ l := by
  rw [jsDistinct, jsDistinctAux_mem]
  simp

theorem jsDistinctAux_nodup {α : Type} [DecidableEq α] (l : List α) :
    ∀ (seen : List α), (jsDistinctAux l seen).Nodup := by
  induction l with
  | nil => intro seen; simp [jsDistinctAux]
  | cons a l ih =>
    intro seen
    by_cases ha : a ∈ seen
    · rw [jsDistinctAux, if_pos ha]; exact ih _
    · rw [jsDistinctAux, if_neg ha]
      refine List.nodup_cons.mpr ⟨fun hmem => ?_, ih _⟩
      have := (jsDistinctAux_mem l (seen ++ [a]) a).mp hmem
      exact this.2 (List.mem_append_right seen (List.mem_singleton.mpr rfl))

theorem jsDistinct_nodup {α : Type} [DecidableEq α] (l : List α) :
    (jsDistinct l).Nodup :=
  jsDistinctAux_nodup l []

theorem jsDistinctAux_eq_nil {α : Type} [DecidableEq α] (l : List α) :
    ∀ (seen : List α), (∀ x ∈ l, x ∈ seen) → jsDistinctAux l seen = [] := by
  induction l with
  | nil => intro seen _; rfl
  | cons a l ih =>
    intro seen hsub
    rw [jsDistinctAux, if_pos (hsub a (List.mem_cons_self a l))]
    exact ih _ fun x hx => List.mem_append_left [a] (hsub x (List.mem_cons_of_mem a hx))

theorem jsDistinct_all_eq {α : Type} [DecidableEq α] (a : α) (l : List α)
    (hne : l ≠ []) (hall : ∀ x ∈ l, x = a) : jsDistinct l = [a] := by
  cases l with
  | nil => exact absurd rfl hne
  | cons b l =>
    have hb : b = a := hall b (List.mem_cons_self b l)
    subst hb
    rw [jsDistinct, jsDistinctAux, if_neg (List.not_mem_nil b)]
    rw [jsDistinctAux_eq_nil l ([] ++ [b]) fun x hx => by
      simpa using hall x (List.mem_cons_of_mem b hx)]

/-- C5 counterexample: regional mode on, default region "Europe", one
record whose Region is null — the records contain exactly one distinct
Region value (null), yet `getCurrentRegion` neither returns it nor falls
back to the default: `distinctRegions[0].toString()` throws. -/
theorem claim_c5_counterexample :
    getCurrentRegion ⟨true, "Europe"⟩ [mkRec none none none none none 0] =
      Except.error () := rfl

/-- C5 (amended): with regional mode on and default region "USA" the
resolved region is "USA" unconditionally; otherwise, with no records the
default is returned, with a non-empty record list all of whose Regions
equal one non-null value that value is returned, with a non-empty record
list all of whose Regions are null the call throws, and with two records
of differing Region values the default is returned. -/
theorem claim_c5 (s : Settings) (mapData : List GlobalFacilityLocation) :
    (s.viewRegionalMap = true → s.defaultRegion = "USA" →
      getCurrentRegion s mapData = .ok "USA") ∧
    (¬(s.viewRegionalMap = true ∧ s.defaultRegion = "USA") →
      (mapData = [] → getCurrentRegion s mapData = .ok s.defaultRegion) ∧
      (∀ r : String, mapData ≠ [] → (∀ x ∈ mapData, x.Region = some r) →
        getCurrentRegion s mapData = .ok r) ∧
      (mapData ≠ [] → (∀ x ∈ mapData, x.Region = none) →
        getCurrentRegion s mapData = .error ()) ∧
      ((∃ x ∈ mapData, ∃ y ∈ mapData, x.Region ≠ y.Region) →
        getCurrentRegion s mapData = .ok s.defaultRegion)) := by
  constructor
  · intro hv hd
    simp [getCurrentRegion, hv, hd]
  · intro hcond
    have hbool : (s.viewRegionalMap && s.defaultRegion == "USA") = false := by
      by_cases hv : s.viewRegionalMap = true
      · by_cases hd : s.defaultRegion = "USA"
        · exact absurd ⟨hv, hd⟩ hcond
        · simp [hv, hd]
      · simp [Bool.of_not_eq_true hv]
    refine ⟨?_, ?_, ?_, ?_⟩
    · intro hnil
      subst hnil
      simp [getCurrentRegion, hbool, jsDistinct, jsDistinctAux]
    · intro r hne hall
      have hD : jsDistinct (mapData.map (·.Region)) = [some r] := by
        refine jsDistinct_all_eq (some r) _ (by simpa using hne) ?_
        intro x hx
        obtain ⟨d, hd, rfl⟩ := List.mem_map.mp hx
        exact hall d hd
      simp [getCurrentRegion, hbool, hD]
    · intro hne hall
      have hD : jsDistinct (mapData.map (·.Region)) = [none] := by
        refine jsDistinct_all_eq none _ (by simpa using hne) ?_
        intro x hx
        obtain ⟨d, hd, rfl⟩ := List.mem_map.mp hx
        exact hall d hd
      simp [getCurrentRegion, hbool, hD]
    · rintro ⟨x, hx, y, hy, hxy⟩
      have hxd : x.Region ∈ jsDistinct (mapData.map (·.Region)) :=
        (jsDistinct_mem _ _).mpr (List.mem_map.mpr ⟨x, hx, rfl⟩)
      have hyd : y.Region ∈ jsDistinct (mapData.map (·.Region)) :=
        (jsDistinct_mem _ _).mpr (List.mem_map.mpr ⟨y, hy, rfl⟩)
      rcases hD : jsDistinct (mapData.map (·.Region)) with _ | ⟨v, _ | ⟨w, tl⟩⟩
      · simp [getCurrentRegion, hbool, hD]
      · rw [hD] at hxd hyd
        have hxv : x.Region = v := List.mem_singleton.mp hxd
        have hyv : y.Region = v := List.mem_singleton.mp hyd
        exact absurd (hxv.trans hyv.symm) hxy
      · cases v <;> simp [getCurrentRegion, hbool, hD]

/-! ### Distinct-Launch-values theorems -/

theorem jsSortKey_le_trans (a b c : Option String)
    (hab : decide (jsSortKey a ≤ jsSortKey b) = true)
    (hbc : decide (jsSortKey b ≤ jsSortKey c) = true) :
    decide (jsSortKey a ≤ jsSortKey c) = true := by
  simp only [decide_eq_true_eq] at *
  exact le_trans hab hbc

theorem jsSortKey_le_total (a b : Option String) :
    (decide (jsSortKey a ≤ jsSortKey b) || decide (jsSortKey b ≤ jsSortKey a)) = true := by
  rcases le_total (jsSortKey a) (jsSortKey b) with h | h <;> simp [h]

/-- C9 counterexample: a single record with a null Launch — the
distinct-Launch-values result is exactly `[null]`: nulls are not
filtered out, contradicting "never contains null". -/
theorem claim_c9_counterexample :
    none ∈ getDistinctYears [mkRec none none none none none 0] := by
  unfold getDistinctYears
  rw [show jsDistinct ([mkRec none none none none none 0].map (·.Launch)) = [none] from rfl,
    List.mergeSort_singleton]
  exact List.mem_singleton.mpr rfl

/-- C9 (amended): both distinct-Launch computations contain no duplicate
element and contain exactly the Launch values present in the records —
so null appears exactly when some record's Launch is null, rather than
never; the world variant is sorted ascending by the JS default-sort
string key. -/
theorem claim_c9 (mapData : List GlobalFacilityLocation) :
    (getDistinctYears mapData).Nodup ∧
    (∀ v, v ∈ getDistinctYears mapData ↔ v ∈ mapData.map (·.Launch)) ∧
    (getDistinctYears mapData).Pairwise (fun a b => jsSortKey a ≤ jsSortKey b) ∧
    (getDistinctYearsRegional mapData).Nodup ∧
    (∀ v, v ∈ getDistinctYearsRegional mapData ↔ v ∈ mapData.map (·.Launch)) := by
  have hperm := List.mergeSort_perm (jsDistinct (mapData.map (·.Launch)))
    (fun a b => decide (jsSortKey a ≤ jsSortKey b))
  have hpermR := List.mergeSort_perm (jsDistinct (mapData.map (·.Launch))) numLe
  refine ⟨?_, ?_, ?_, ?_, ?_⟩
  · exact hperm.symm.nodup (jsDistinct_nodup _)
  · intro v
    exact (hperm.mem_iff).trans (jsDistinct_mem _ v)
  · have := List.sorted_mergeSort jsSortKey_le_trans jsSortKey_le_total
      (jsDistinct (mapData.map (·.Launch)))
    exact this.imp (fun h => by simpa using h)
  · exact hpermR.symm.nodup (jsDistinct_nodup _)
  · intro v
    exact (hpermR.mem_iff).trans (jsDistinct_mem _ v)

/-! ### Update-phase record selection (C3) -/

theorem foldl_append_flatMap {α β : Type} (f : α → List β) (ys : List α) :
    ∀ (init : List β), ys.foldl (fun acc y => acc ++ f y) init = init ++ ys.flatMap f := by
  induction ys with
  | nil => intro init; simp
  | cons y ys ih =>
    intro init
    rw [List.foldl_cons, ih, List.flatMap_cons, List.append_assoc]

theorem finalMapDataOf_eq (cy : Nat) (mapData : List GlobalFacilityLocation) :
    finalMapDataOf cy mapData =
      ((List.range 10).map (fun k => cy - 1 + k)).flatMap
        (fun y => (mapData.take 1000).filter (fun d => d.Launch = some (toString y))) := by
  simp only [finalMapDataOf]
  rw [foldl_append_flatMap, List.nil_append]

/-- C3: on every update (with the wall-clock year a parameter of the
embedding), the rendered record list contains exactly the records among
the first 1000 decoded ones whose Launch equals the decimal string of a
year between `currentYear - 1` and `currentYear + 8`, and it is grouped
in ascending year order. -/
theorem claim_c3 (cy : Nat) (hcy : 1 ≤ cy) (mapData : List GlobalFacilityLocation) :
    (∀ r, r ∈ finalMapDataOf cy mapData ↔
      r ∈ mapData.take 1000 ∧
        ∃ y, cy - 1 ≤ y ∧ y ≤ cy + 8 ∧ r.Launch = some (toString y)) ∧
    (finalMapDataOf cy mapData).Pairwise (fun a b => ∃ ya yb : Nat, ya ≤ yb ∧
      a.Launch = some (toString ya) ∧ b.Launch = some (toString yb)) := by
  rw [finalMapDataOf_eq]
  constructor
  · intro r
    rw [List.mem_flatMap]
    constructor
    · rintro ⟨y, hy, hr⟩
      rw [List.mem_filter] at hr
      obtain ⟨k, hk, rfl⟩ := List.mem_map.mp hy
      have hk10 := List.mem_range.mp hk
      exact ⟨hr.1, cy - 1 + k, by omega, by omega, by simpa using hr.2⟩
    · rintro ⟨hrt, y, h1, h2, hL⟩
      refine ⟨y, List.mem_map.mpr ⟨y - (cy - 1), List.mem_range.mpr (by omega), by omega⟩, ?_⟩
      rw [List.mem_filter]
      exact ⟨hrt, by simp [hL]⟩
  · rw [List.flatMap_def, List.pairwise_flatten]
    constructor
    · intro l hl
      obtain ⟨y, hy, rfl⟩ := List.mem_map.mp hl
      refine List.pairwise_of_forall_mem_list (fun a ha b hb => ?_)
      rw [List.mem_filter] at ha hb
      exact ⟨y, y, le_refl y, by simpa using ha.2, by simpa using hb.2⟩
    · rw [List.pairwise_map, List.pairwise_map]
      refine (List.pairwise_lt_range 10).imp (fun {k1 k2} hk x hx z hz => ?_)
      rw [List.mem_filter] at hx hz
      exact ⟨cy - 1 + k1, cy - 1 + k2, by omega, by simpa using hx.2, by simpa using hz.2⟩

/-- C3 witness: at wall-clock year 2026, a list holding a record with
Launch "2025" (kept) and one with the two-token "Q1 2024" (excluded). -/
theorem claim_c3_witness :
    (∀ r, r ∈ finalMapDataOf 2026
        [mkRec none none none (some "2025") none 7,
         mkRec none none none (some "Q1 2024") none 8] ↔
      r ∈ [mkRec none none none (some "2025") none 7,
           mkRec none none none (some "Q1 2024") none 8].take 1000 ∧
        ∃ y, 2026 - 1 ≤ y ∧ y ≤ 2026 + 8 ∧ r.Launch = some (toString y)) ∧
    (finalMapDataOf 2026
        [mkRec none none none (some "2025") none 7,
         mkRec none none none (some "Q1 2024") none 8]).Pairwise
      (fun a b => ∃ ya yb : Nat, ya ≤ yb ∧
        a.Launch = some (toString ya) ∧ b.Launch = some (toString yb)) :=
  claim_c3 2026 (by decide)
    [mkRec none none none (some "2025") none 7,
     mkRec none none none (some "Q1 2024") none 8]

/-! ### Geo-color-map builder theorems -/

/-- C2 counterexample: a record list holding one record with null Country
(resp. null State) makes the world (resp. US-state) color-map builder
throw a TypeError instead of completing and skipping the record. -/
theorem claim_c2_counterexample :
    getDatamapColorData [mkRec none none none none none 0] getCountryCodes [] =
      Except.error () ∧
    getDatamapColorDataFromUSA [mkRec none none none none none 0] getUSAStateCodes [] =
      Except.error () :=
  ⟨rfl, rfl⟩

theorem except_bind_error {ε α β : Type} (e : ε) (f : α → Except ε β) :
    ((Except.error e : Except ε α) >>= f) = Except.error e := rfl

theorem except_bind_ok {ε α β : Type} (a : α) (f : α → Except ε β) :
    ((Except.ok a : Except ε α) >>= f) = f a := rfl

theorem except_pure_bind {ε α β : Type} (a : α) (f : α → Except ε β) :
    ((pure a : Except ε α) >>= f) = f a := rfl

theorem datamapAux_ok_iff (codes : List CountryCode) (hne : codes ≠ [])
    (ycd : List YearColorEntry) :
    ∀ (mapData : List GlobalFacilityLocation) (acc : List (String × ColorEntry)),
    (∃ m, List.foldlM
        (fun colorData v => do
          let countryCode ← findCountry codes v.Country
          pure (colorStep ycd colorData v countryCode)) acc mapData = Except.ok m) ↔
      ∀ v ∈ mapData, v.Country ≠ none := by
  obtain ⟨c0, cs, rfl⟩ : ∃ c0 cs, codes = c0 :: cs := by
    cases codes with
    | nil => exact absurd rfl hne
    | cons c0 cs => exact ⟨c0, cs, rfl⟩
  intro mapData
  induction mapData with
  | nil =>
    intro acc
    simp [List.foldlM_nil]
    exact ⟨acc, rfl⟩
  | cons v rest ih =>
    intro acc
    rw [List.foldlM_cons, List.forall_mem_cons]
    cases hv : v.Country with
    | none =>
      rw [show findCountry (c0 :: cs) none = Except.error () from rfl,
        except_bind_error, except_bind_error]
      simp
    | some s =>
      rw [show findCountry (c0 :: cs) (some s) =
          Except.ok ((c0 :: cs).find? (fun c => jsToLower c.country = jsToLower s)) from rfl,
        except_bind_ok, except_pure_bind, ih]
      simp

theorem datamapAuxUSA_ok_iff (codes : List StateCode) (hne : codes ≠ [])
    (ycd : List YearColorEntry) :
    ∀ (mapData : List GlobalFacilityLocation) (acc : List (String × ColorEntry)),
    (∃ m, List.foldlM
        (fun colorData v => do
          let stateCode ← findState codes v.State
          pure (colorStepUSA ycd colorData v stateCode)) acc mapData = Except.ok m) ↔
      ∀ v ∈ mapData, v.State ≠ none := by
  obtain ⟨c0, cs, rfl⟩ : ∃ c0 cs, codes = c0 :: cs := by
    cases codes with
    | nil => exact absurd rfl hne
    | cons c0 cs => exact ⟨c0, cs, rfl⟩
  intro mapData
  induction mapData with
  | nil =>
    intro acc
    simp [List.foldlM_nil]
    exact ⟨acc, rfl⟩
  | cons v rest ih =>
    intro acc
    rw [List.foldlM_cons, List.forall_mem_cons]
    cases hv : v.State with
    | none =>
      rw [show findState (c0 :: cs) none = Except.error () from rfl,
        except_bind_error, except_bind_error]
      simp
    | some s =>
      rw [show findState (c0 :: cs) (some s) =
          Except.ok ((c0 :: cs).find? (fun c => jsToLower c.state = jsToLower s)) from rfl,
        except_bind_ok, except_pure_bind, ih]
      simp

/-- C2 (amended): the world color-map builder completes (without
throwing) exactly when every record's Country is non-null, and the
US-state builder exactly when every record's State is non-null; a record
with a null Country (resp. State) makes the builder throw rather than
being silently excluded. -/
theorem claim_c2 (mapData : List GlobalFacilityLocation) (ycd : List YearColorEntry) :
    ((∃ m, getDatamapColorData mapData getCountryCodes ycd = Except.ok m) ↔
      ∀ v ∈ mapData, v.Country ≠ none) ∧
    ((∃ m, getDatamapColorDataFromUSA mapData getUSAStateCodes ycd = Except.ok m) ↔
      ∀ v ∈ mapData, v.State ≠ none) := by
  constructor
  · rw [getDatamapColorData]
    exact datamapAux_ok_iff getCountryCodes (by unfold getCountryCodes; simp) ycd mapData []
  · rw [getDatamapColorDataFromUSA]
    exact datamapAuxUSA_ok_iff getUSAStateCodes (by unfold getUSAStateCodes; simp) ycd mapData []

/-! ### Last-write-wins characterization of the geo-color map (C10) -/

theorem option_map_or {α β : Type} (x y : Option α) (f : α → β) :
    (x.or y).map f = (x.map f).or (y.map f) := by
  cases x <;> rfl

theorem objGet_cons_of_eq (p : String × ColorEntry) (rest : List (String × ColorEntry))
    (q : String) (h : p.1 = q) : objGet (p :: rest) q = some p.2 := by
  unfold objGet
  rw [List.find?_cons_of_pos _ (by simpa using h)]
  rfl

theorem objGet_cons_of_ne (p : String × ColorEntry) (rest : List (String × ColorEntry))
    (q : String) (h : ¬p.1 = q) : objGet (p :: rest) q = objGet rest q := by
  unfold objGet
  rw [List.find?_cons_of_neg _ (by simpa using h)]

theorem objGet_map_replace (k : String) (v : ColorEntry) (q : String)
    (m : List (String × ColorEntry)) :
    objGet (m.map (fun p => if p.1 = k then (k, v) else p)) q =
      if q = k then (if m.any (fun p => p.1 = k) then some v else none)
      else objGet m q := by
  induction m with
  | nil => by_cases hq : q = k <;> simp [objGet, hq]
  | cons p m ih =>
    simp only [List.map_cons, List.any_cons]
    by_cases hp : p.1 = k
    · rw [if_pos hp]
      by_cases hq : q = k
      · rw [objGet_cons_of_eq _ _ _ (by simp [hq])]
        simp [hq, hp]
      · rw [objGet_cons_of_ne _ _ _ (by simpa using fun h => hq h.symm),
          objGet_cons_of_ne _ _ _ (by rw [hp]; exact fun h => hq h.symm), ih]
        simp [hq]
    · rw [if_neg hp]
      by_cases hpq : p.1 = q
      · have hqk : ¬q = k := fun h => hp (hpq.trans h)
        rw [objGet_cons_of_eq _ _ _ hpq, if_neg hqk, objGet_cons_of_eq _ _ _ hpq]
      · rw [objGet_cons_of_ne _ _ _ hpq, objGet_cons_of_ne _ _ _ hpq, ih]
        simp only [show decide (p.1 = k) = false from by simp [hp], Bool.false_or]

theorem objGet_objSet (m : List (String × ColorEntry)) (k : String) (v : ColorEntry)
    (q : String) :
    objGet (objSet m k v) q = if q = k then some v else objGet m q := by
  unfold objSet
  by_cases hany : m.any (fun p => p.1 = k) = true
  · rw [if_pos hany, objGet_map_replace, if_pos hany]
  · rw [if_neg hany]
    have hall := List.any_eq_false.mp (by rwa [Bool.not_eq_true] at hany)
    unfold objGet
    rw [List.find?_append]
    by_cases hq : q = k
    · subst hq
      rw [List.find?_eq_none.mpr hall]
      rw [List.find?_cons_of_pos _ (by simp)]
      simp
    · rw [show List.find? (fun p => decide (p.1 = q)) [(k, v)] = none from by
        rw [List.find?_eq_none]
        simpa using fun h => hq h.symm]
      rw [Option.or_none]
      simp [hq]

theorem colorStep_objGet (codes : List CountryCode) (ycd : List YearColorEntry)
    (acc : List (String × ColorEntry)) (v : GlobalFacilityLocation)
    (cc? : Option CountryCode) (q : String)
    (hfind : findCountry codes v.Country = Except.ok cc?) :
    objGet (colorStep ycd acc v cc?) q =
      ((((recordEmission codes ycd v).toList.filter (fun p => p.1 = q)).getLast?).map
        Prod.snd).or (objGet acc q) := by
  cases hv : v.Country with
  | none =>
    cases codes with
    | nil =>
      have hcc : (none : Option CountryCode) = cc? := by
        have h0 := hfind
        rw [hv, show findCountry ([] : List CountryCode) none = Except.ok none from rfl] at h0
        injection h0
      subst hcc
      cases hyc : ycd.find? (fun y => y.Year = v.Launch) <;>
        simp [colorStep, recordEmission, hv, hyc]
    | cons c0 cs =>
      rw [hv, show findCountry (c0 :: cs) none = Except.error () from rfl] at hfind
      exact absurd hfind (by simp)
  | some s =>
    have hcc : cc? = codes.find? (fun c => jsToLower c.country = jsToLower s) := by
      cases codes with
      | nil =>
        have h0 := hfind
        rw [hv, show findCountry ([] : List CountryCode) (some s) = Except.ok none from rfl]
          at h0
        have h1 : (none : Option CountryCode) = cc? := by injection h0
        rw [← h1]
        rfl
      | cons c0 cs =>
        have h0 := hfind
        rw [hv, show findCountry (c0 :: cs) (some s) =
          Except.ok ((c0 :: cs).find? (fun c => jsToLower c.country = jsToLower s)) from rfl]
          at h0
        have h1 := h0
        injection h1 with h2
        exact h2.symm
    subst hcc
    cases hfc : codes.find? (fun c => jsToLower c.country = jsToLower s) with
    | none =>
      cases hyc : ycd.find? (fun y => y.Year = v.Launch) <;>
        simp [colorStep, recordEmission, hv, hfc, hyc]
    | some cc =>
      cases hyc : ycd.find? (fun y => y.Year = v.Launch) with
      | none => simp [colorStep, recordEmission, hv, hfc, hyc]
      | some yc =>
        by_cases hcode : cc.code = ""
        · simp [colorStep, recordEmission, hv, hfc, hyc, hcode]
        · cases hcol : yc.Color with
          | none => simp [colorStep, recordEmission, hv, hfc, hyc, hcode, hcol]
          | some col =>
            by_cases hce : col = ""
            · simp [colorStep, recordEmission, hv, hfc, hyc, hcode, hcol, hce]
            · simp only [colorStep, recordEmission, hv, hfc, hyc, hcode, hcol, hce,
                if_false]
              rw [if_pos hcode, if_pos hce, objGet_objSet]
              by_cases hq : q = cc.code
              · rw [if_pos hq]
                simp [hq.symm]
              · rw [if_neg hq]
                simp [show ¬cc.code = q from fun h => hq h.symm]

theorem colorStepUSA_objGet (codes : List StateCode) (ycd : List YearColorEntry)
    (acc : List (String × ColorEntry)) (v : GlobalFacilityLocation)
    (sc? : Option StateCode) (q : String)
    (hfind : findState codes v.State = Except.ok sc?) :
    objGet (colorStepUSA ycd acc v sc?) q =
      ((((recordEmissionUSA codes ycd v).toList.filter (fun p => p.1 = q)).getLast?).map
        Prod.snd).or (objGet acc q) := by
  cases hv : v.State with
  | none =>
    cases codes with
    | nil =>
      have hcc : (none : Option StateCode) = sc? := by
        have h0 := hfind
        rw [hv, show findState ([] : List StateCode) none = Except.ok none from rfl] at h0
        injection h0
      subst hcc
      cases hyc : ycd.find? (fun y => y.Year = v.Launch) <;>
        simp [colorStepUSA, recordEmissionUSA, hv, hyc]
    | cons c0 cs =>
      rw [hv, show findState (c0 :: cs) none = Except.error () from rfl] at hfind
      exact absurd hfind (by simp)
  | some s =>
    have hcc : sc? = codes.find? (fun c => jsToLower c.state = jsToLower s) := by
      cases codes with
      | nil =>
        have h0 := hfind
        rw [hv, show findState ([] : List StateCode) (some s) = Except.ok none from rfl]
          at h0
        have h1 : (none : Option StateCode) = sc? := by injection h0
        rw [← h1]
        rfl
      | cons c0 cs =>
        have h0 := hfind
        rw [hv, show findState (c0 :: cs) (some s) =
          Except.ok ((c0 :: cs).find? (fun c => jsToLower c.state = jsToLower s)) from rfl]
          at h0
        have h1 := h0
        injection h1 with h2
        exact h2.symm
    subst hcc
    cases hfc : codes.find? (fun c => jsToLower c.state = jsToLower s) with
    | none =>
      cases hyc : ycd.find? (fun y => y.Year = v.Launch) <;>
        simp [colorStepUSA, recordEmissionUSA, hv, hfc, hyc]
    | some sc =>
      cases hyc : ycd.find? (fun y => y.Year = v.Launch) with
      | none => simp [colorStepUSA, recordEmissionUSA, hv, hfc, hyc]
      | some yc =>
        by_cases hcode : sc.code = ""
        · simp [colorStepUSA, recordEmissionUSA, hv, hfc, hyc, hcode]
        · cases hcol : yc.Color with
          | none => simp [colorStepUSA, recordEmissionUSA, hv, hfc, hyc, hcode, hcol]
          | some col =>
            by_cases hce : col = ""
            · simp [colorStepUSA, recordEmissionUSA, hv, hfc, hyc, hcode, hcol, hce]
            · simp only [colorStepUSA, recordEmissionUSA, hv, hfc, hyc, hcode, hcol, hce,
                if_false]
              rw [if_pos hcode, if_pos hce, objGet_objSet]
              by_cases hq : q = sc.code
              · rw [if_pos hq]
                simp [hq.symm]
              · rw [if_neg hq]
                simp [show ¬sc.code = q from fun h => hq h.symm]

theorem colorAux (codes : List CountryCode) (ycd : List YearColorEntry) :
    ∀ (mapData : List GlobalFacilityLocation) (acc m : List (String × ColorEntry)),
    List.foldlM
        (fun colorData v => do
          let countryCode ← findCountry codes v.Country
          pure (colorStep ycd colorData v countryCode)) acc mapData = Except.ok m →
    ∀ q, objGet m q =
      ((((mapData.filterMap (recordEmission codes ycd)).filter
        (fun p => p.1 = q)).getLast?).map Prod.snd).or (objGet acc q) := by
  intro mapData
  induction mapData with
  | nil =>
    intro acc m h q
    rw [List.foldlM_nil, show (pure acc : Except Unit _) = Except.ok acc from rfl] at h
    injection h with h
    subst h
    simp
  | cons v rest ih =>
    intro acc m h q
    rw [List.foldlM_cons] at h
    cases hfc : findCountry codes v.Country with
    | error e =>
      rw [hfc, except_bind_error, except_bind_error] at h
      exact absurd h (by simp)
    | ok cc? =>
      rw [hfc, except_bind_ok, except_pure_bind] at h
      rw [ih _ _ h q, colorStep_objGet codes ycd acc v cc? q hfc,
        List.filterMap_cons]
      cases he : recordEmission codes ycd v with
      | none => simp
      | some b =>
        rw [show (List.filter (fun p => decide (p.1 = q))
            (b :: rest.filterMap (recordEmission codes ycd))) =
          List.filter (fun p => decide (p.1 = q)) [b] ++
            List.filter (fun p => decide (p.1 = q)) (rest.filterMap (recordEmission codes ycd))
          from by rw [← List.filter_append]; rfl]
        rw [List.getLast?_append, option_map_or, Option.or_assoc]
        rfl

theorem colorAuxUSA (codes : List StateCode) (ycd : List YearColorEntry) :
    ∀ (mapData : List GlobalFacilityLocation) (acc m : List (String × ColorEntry)),
    List.foldlM
        (fun colorData v => do
          let stateCode ← findState codes v.State
          pure (colorStepUSA ycd colorData v stateCode)) acc mapData = Except.ok m →
    ∀ q, objGet m q =
      ((((mapData.filterMap (recordEmissionUSA codes ycd)).filter
        (fun p => p.1 = q)).getLast?).map Prod.snd).or (objGet acc q) := by
  intro mapData
  induction mapData with
  | nil =>
    intro acc m h q
    rw [List.foldlM_nil, show (pure acc : Except Unit _) = Except.ok acc from rfl] at h
    injection h with h
    subst h
    simp
  | cons v rest ih =>
    intro acc m h q
    rw [List.foldlM_cons] at h
    cases hfc : findState codes v.State with
    | error e =>
      rw [hfc, except_bind_error, except_bind_error] at h
      exact absurd h (by simp)
    | ok sc? =>
      rw [hfc, except_bind_ok, except_pure_bind] at h
      rw [ih _ _ h q, colorStepUSA_objGet codes ycd acc v sc? q hfc,
        List.filterMap_cons]
      cases he : recordEmissionUSA codes ycd v with
      | none => simp
      | some b =>
        rw [show (List.filter (fun p => decide (p.1 = q))
            (b :: rest.filterMap (recordEmissionUSA codes ycd))) =
          List.filter (fun p => decide (p.1 = q)) [b] ++
            List.filter (fun p => decide (p.1 = q)) (rest.filterMap (recordEmissionUSA codes ycd))
          from by rw [← List.filter_append]; rfl]
        rw [List.getLast?_append, option_map_or, Option.or_assoc]
        rfl

/-- C10: whenever the world geo-color-map builder completes with result
`m`, the entry of `m` under any geographic code `c` is exactly the
(fillKey, selectionId) emission of the LAST record in input order that
resolves (case-insensitively) to code `c` with an accepted cohort color —
later records overwrite earlier ones; and likewise for the US-state
builder. -/
theorem claim_c10 (mapData : List GlobalFacilityLocation)
    (countryCodes : List CountryCode) (stateCodes : List StateCode)
    (ycd : List YearColorEntry) (m mUSA : List (String × ColorEntry)) (c : String)
    (h : getDatamapColorData mapData countryCodes ycd = Except.ok m)
    (hUSA : getDatamapColorDataFromUSA mapData stateCodes ycd = Except.ok mUSA) :
    objGet m c =
      (((mapData.filterMap (recordEmission countryCodes ycd)).filter
        (fun p => p.1 = c)).getLast?).map Prod.snd ∧
    objGet mUSA c =
      (((mapData.filterMap (recordEmissionUSA stateCodes ycd)).filter
        (fun p => p.1 = c)).getLast?).map Prod.snd := by
  constructor
  · have hc := colorAux countryCodes ycd mapData [] m (by rw [getDatamapColorData] at h; exact h) c
    rw [hc, show objGet [] c = none from rfl, Option.or_none]
  · have hc := colorAuxUSA stateCodes ycd mapData [] mUSA
      (by rw [getDatamapColorDataFromUSA] at hUSA; exact hUSA) c
    rw [hc, show objGet [] c = none from rfl, Option.or_none]

/-- C10 witness: two records both resolving case-insensitively to "FRA"
("france" and "France") with the same accepted cohort color — the single
"FRA" entry carries the selection id 1 of the LAST record; and the state
variant at two "Texas" records. -/
theorem claim_c10_witness :
    objGet [("FRA", ⟨"#ff0000", 1⟩)] "FRA" =
      ((([mkRec none (some "Texas") (some "france") (some "2025") none 0,
          mkRec none (some "texas") (some "France") (some "2025") none 1].filterMap
          (recordEmission getCountryCodes [⟨some "2025", some "#ff0000"⟩])).filter
        (fun p => p.1 = "FRA")).getLast?).map Prod.snd ∧
    objGet [("TX", ⟨"#ff0000", 1⟩)] "FRA" =
      ((([mkRec none (some "Texas") (some "france") (some "2025") none 0,
          mkRec none (some "texas") (some "France") (some "2025") none 1].filterMap
          (recordEmissionUSA getUSAStateCodes [⟨some "2025", some "#ff0000"⟩])).filter
        (fun p => p.1 = "FRA")).getLast?).map Prod.snd :=
  claim_c10
    [mkRec none (some "Texas") (some "france") (some "2025") none 0,
     mkRec none (some "texas") (some "France") (some "2025") none 1]
    getCountryCodes getUSAStateCodes [⟨some "2025", some "#ff0000"⟩]
    [("FRA", ⟨"#ff0000", 1⟩)] [("TX", ⟨"#ff0000", 1⟩)] "FRA" rfl rfl
